import Mathlib

/-!
Verification of the VPN session-protocol engine (`vpn-shared`, `vpn-server`,
`vpn-client`) against its natural-language specification.

Bytes are modelled as `Nat` (the embedding never depends on the 0..255 range
except where the code itself truncates), byte buffers as `List Nat`, and the
fallible Rust functions (`anyhow::Result`) as `Except String` / `Option`.
-/

/-! ## Byte-level constants (src/vpn-shared/src/packet.rs) -/

def NONCE_SIZE : Nat := 12

def KEY_SIZE : Nat := 32

def TAG_SIZE : Nat := 16

/-! ## EncryptedPacket (src/vpn-shared/src/packet.rs)

`struct EncryptedPacket { nonce: [u8; NONCE_SIZE], data: Vec<u8>, tag: Tag }`.
The fixed-size fields carry their length as a side condition (`Wf`). -/

structure EncryptedPacket where
  nonce : List Nat
  data : List Nat
  tag : List Nat
deriving Repr, DecidableEq

/-- The length invariants of the Rust types `[u8; 12]` and `Tag` (16 bytes). -/
def EncryptedPacket.Wf (p : EncryptedPacket) : Prop :=
  p.nonce.length = NONCE_SIZE ∧ p.tag.length = TAG_SIZE

instance (p : EncryptedPacket) : Decidable p.Wf := by
  unfold EncryptedPacket.Wf; infer_instance

/-- `EncryptedPacket::to_bytes`: emit `nonce ‖ data ‖ tag`. -/
def EncryptedPacket.to_bytes (p : EncryptedPacket) : List Nat :=
  p.nonce ++ p.data ++ p.tag

/-- `EncryptedPacket::from_bytes`: reject buffers shorter than
`NONCE_SIZE + TAG_SIZE`; otherwise split off the 12-byte nonce, the 16-byte
trailing tag, and the ciphertext between them. -/
def EncryptedPacket.from_bytes (bytes : List Nat) : Except String EncryptedPacket :=
  if bytes.length < NONCE_SIZE + TAG_SIZE then
    .error "Packet too short"
  else
    .ok { nonce := bytes.take NONCE_SIZE
          data := (bytes.take (bytes.length - TAG_SIZE)).drop NONCE_SIZE
          tag := bytes.drop (bytes.length - TAG_SIZE) }

example :
    EncryptedPacket.from_bytes (List.range 30) =
      .ok { nonce := List.range 12, data := [12, 13], tag := (List.range 30).drop 14 } := rfl

example : EncryptedPacket.from_bytes (List.range 27) = .error "Packet too short" := rfl

/-! ## C10: `from_bytes ∘ to_bytes` identity -/

/-- C10: for every well-formed `EncryptedPacket` `p` (12-byte nonce, any
ciphertext body including the empty one, 16-byte tag), `from_bytes (to_bytes p)`
succeeds and returns a packet with the same nonce, data and tag; and `to_bytes`
emits exactly `nonce ‖ ciphertext ‖ tag`. -/
theorem EncryptedPacket.from_bytes_to_bytes (p : EncryptedPacket) (hw : p.Wf) :
    EncryptedPacket.from_bytes p.to_bytes = .ok p ∧
      p.to_bytes = p.nonce ++ p.data ++ p.tag := by
  obtain ⟨hn, ht⟩ := hw
  have hlen2 : ((p.nonce ++ p.data) ++ p.tag).length - TAG_SIZE =
      (p.nonce ++ p.data).length := by
    rw [← ht]; simp only [List.length_append]; omega
  have e1 : ((p.nonce ++ p.data) ++ p.tag).take NONCE_SIZE = p.nonce := by
    rw [List.append_assoc, ← hn, List.take_left]
  have e2 : (((p.nonce ++ p.data) ++ p.tag).take
      (((p.nonce ++ p.data) ++ p.tag).length - TAG_SIZE)).drop NONCE_SIZE = p.data := by
    rw [hlen2, List.take_left, ← hn, List.drop_left]
  have e3 : ((p.nonce ++ p.data) ++ p.tag).drop
      (((p.nonce ++ p.data) ++ p.tag).length - TAG_SIZE) = p.tag := by
    rw [hlen2, List.drop_left]
  refine ⟨?_, rfl⟩
  show EncryptedPacket.from_bytes ((p.nonce ++ p.data) ++ p.tag) = .ok p
  unfold EncryptedPacket.from_bytes
  rw [if_neg ?hge]
  case hge =>
    rw [← hn, ← ht]; simp only [List.length_append]; omega
  simp only [e1, e2, e3]

/-- Witness for C10 at a concrete packet: 12-byte zero nonce, two-byte body,
16-byte zero tag. -/
theorem EncryptedPacket.from_bytes_to_bytes_witness :
    (EncryptedPacket.mk (List.replicate 12 0) [7, 9] (List.replicate 16 0)).Wf ∧
      (EncryptedPacket.from_bytes
          (EncryptedPacket.mk (List.replicate 12 0) [7, 9] (List.replicate 16 0)).to_bytes =
        .ok (EncryptedPacket.mk (List.replicate 12 0) [7, 9] (List.replicate 16 0)) ∧
      (EncryptedPacket.mk (List.replicate 12 0) [7, 9] (List.replicate 16 0)).to_bytes =
        List.replicate 12 0 ++ [7, 9] ++ List.replicate 16 0) :=
  ⟨by decide,
   EncryptedPacket.from_bytes_to_bytes
     (EncryptedPacket.mk (List.replicate 12 0) [7, 9] (List.replicate 16 0)) (by decide)⟩

/-! ## Little-endian integers (bincode 1.x default integer encoding) -/

/-- `k`-byte little-endian encoding of `n` (bytes as `Nat`, each `< 256`). -/
def toLEBytes : Nat → Nat → List Nat
  | 0, _ => []
  | k + 1, n => n % 256 :: toLEBytes k (n / 256)

/-- Value of a little-endian byte list. -/
def fromLEBytes : List Nat → Nat
  | [] => 0
  | b :: bs => b + 256 * fromLEBytes bs

/-- bincode encodes enum variant tags as `u32` little-endian. -/
def u32LE (n : Nat) : List Nat := toLEBytes 4 n

/-- bincode encodes lengths (of `Vec`, `String`, maps) as `u64` little-endian. -/
def u64LE (n : Nat) : List Nat := toLEBytes 8 n

theorem length_toLEBytes (k n : Nat) : (toLEBytes k n).length = k := by
  induction k generalizing n with
  | zero => rfl
  | succ k ih => simp [toLEBytes, ih]

theorem fromLEBytes_toLEBytes (k n : Nat) :
    fromLEBytes (toLEBytes k n) = n % 256 ^ k := by
  induction k generalizing n with
  | zero => simp [toLEBytes, fromLEBytes, Nat.mod_one]
  | succ k ih =>
    have h : (256 : Nat) ^ (k + 1) = 256 * 256 ^ k := by ring
    rw [toLEBytes, fromLEBytes, ih, h, Nat.mod_mul]


/-! ## Strings and byte vectors on the wire

bincode writes a `String` / `Vec<u8>` as a `u64` length followed by the raw
bytes. Strings are modelled by their list of scalar values (one entry per
character); this preserves the length-prefix structure the claims depend on. -/

def strWire (s : String) : List Nat := s.toList.map Char.toNat

/-- bincode encoding of a `String`. -/
def strEnc (s : String) : List Nat := u64LE (strWire s).length ++ strWire s

/-- bincode encoding of a `Vec<u8>`. -/
def bytesEnc (l : List Nat) : List Nat := u64LE l.length ++ l

/-! ## Credentials (src/vpn-shared/src/creds.rs)

`#[serde(tag = "type")] enum Credentials { Password(Password) }` with
`struct Password { username: String, password: String }`. The enum is
*internally tagged*, so serde serializes it through `TaggedSerializer` as a
map of three string-keyed entries (tag entry first, then the struct fields in
declaration order), and bincode writes that map as a `u64` entry count followed
by the key/value pairs. -/

structure Password where
  username : String
  password : String
deriving Repr, DecidableEq

inductive Credentials where
  | Password (p : Password)
deriving Repr, DecidableEq

instance {ε α : Type} [DecidableEq ε] [DecidableEq α] : DecidableEq (Except ε α) := fun a b =>
  match a, b with
  | .ok x, .ok y => decidable_of_iff (x = y) (by simp)
  | .error x, .error y => decidable_of_iff (x = y) (by simp)
  | .ok _, .error _ => .isFalse (by simp)
  | .error _, .ok _ => .isFalse (by simp)

/-- `str::split_once(':')`: split at the first colon, keeping neither side. -/
def splitOnceColon : List Char → Option (List Char × List Char)
  | [] => none
  | c :: rest =>
    if c = ':' then some ([], rest)
    else (splitOnceColon rest).map fun ab => (c :: ab.1, ab.2)

/-- `Credentials::from_str`: split at the first colon; the remainder (further
colons included) is the password. -/
def Credentials.from_str (s : String) : Except String Credentials :=
  match splitOnceColon s.toList with
  | none => .error "Invalid auth string: missing colon"
  | some (u, p) => .ok (.Password ⟨String.mk u, String.mk p⟩)

example : Credentials.from_str "test_user:test_pass" =
    .ok (.Password ⟨"test_user", "test_pass"⟩) := by decide

example : Credentials.from_str "a:b:c" = .ok (.Password ⟨"a", "b:c"⟩) := by decide

/-- serde+bincode serialization of the internally tagged `Credentials`:
a 3-entry map `{"type": "password", "username": u, "password": p}`
(variant name kebab-cased by `rename_all`). -/
def encodeCredentials : Credentials → List Nat
  | .Password pw =>
      u64LE 3 ++ strEnc "type" ++ strEnc "password" ++
        strEnc "username" ++ strEnc pw.username ++
        strEnc "password" ++ strEnc pw.password

/-- Deserializing an internally tagged enum requires
`serde::Deserializer::deserialize_any`, which bincode 1.x rejects with
`ErrorKind::DeserializeAnyNotSupported`; decoding `Credentials` from bincode
bytes therefore always fails, whatever the input. -/
def decodeCredentials (_bytes : List Nat) :
    Except String (Credentials × List Nat) :=
  .error "Bincode does not support the serde::Deserializer::deserialize_any method"

/-! ## ClientPacket and ServerPacket (src/vpn-shared/src/packet.rs)

The enum declarations under `src/vpn-shared/src/packet.rs` list
`ClientPacket { Auth, Data, Ping, Disconnect }` and
`ServerPacket { AuthOk, AuthError, Data, Error, Pong, Disconnect }`.
The `KeyExchange` variants that `handle_packet.rs`, `server.rs` and
`client.rs` pattern-match on are absent from that declaration (the repository
keeps older revisions of some files); they are modelled from the spec:
`ClientMessage` variant `4: KeyExchange(key: [u8; 32])` and `ServerMessage`
variant `6: KeyExchange(key: [u8; 32])`, appended after the declared variants. -/

inductive ClientPacket where
  | Auth (credentials : Credentials)
  | Data (payload : List Nat)
  | Ping
  | Disconnect
  | KeyExchange (key : List Nat)
deriving Repr, DecidableEq

inductive ServerPacket where
  | AuthOk
  | AuthError (msg : String)
  | Data (payload : List Nat)
  | Error (msg : String)
  | Pong
  | Disconnect (reason : String)
  | KeyExchange (key : List Nat)
deriving Repr, DecidableEq

/-- bincode serialization of `ClientPacket`: `u32` variant tag in declaration
order starting at 0, then the payload (`[u8; 32]` is a fixed-size array: raw
bytes, no length prefix). -/
def encodeClientPacket : ClientPacket → List Nat
  | .Auth credentials => u32LE 0 ++ encodeCredentials credentials
  | .Data payload => u32LE 1 ++ bytesEnc payload
  | .Ping => u32LE 2
  | .Disconnect => u32LE 3
  | .KeyExchange key => u32LE 4 ++ key

/-- bincode serialization of `ServerPacket`: `u32` variant tag in declaration
order starting at 0 (`Error` is declared before `Pong` in
src/vpn-shared/src/packet.rs), then the payload. -/
def encodeServerPacket : ServerPacket → List Nat
  | .AuthOk => u32LE 0
  | .AuthError msg => u32LE 1 ++ strEnc msg
  | .Data payload => u32LE 2 ++ bytesEnc payload
  | .Error msg => u32LE 3 ++ strEnc msg
  | .Pong => u32LE 4
  | .Disconnect reason => u32LE 5 ++ strEnc reason
  | .KeyExchange key => u32LE 6 ++ key


/-! ## bincode decoding of the packet enums -/

/-- Read a `u32` little-endian value. -/
def u32Dec (b : List Nat) : Option (Nat × List Nat) :=
  if 4 ≤ b.length then some (fromLEBytes (b.take 4), b.drop 4) else none

/-- Read a `u64` length prefix, then that many raw bytes. -/
def bytesDec (b : List Nat) : Option (List Nat × List Nat) :=
  if 8 ≤ b.length then
    let n := fromLEBytes (b.take 8)
    let rest := b.drop 8
    if n ≤ rest.length then some (rest.take n, rest.drop n) else none
  else none

/-- Read a length-prefixed string. -/
def strDec (b : List Nat) : Option (String × List Nat) :=
  match bytesDec b with
  | some (l, rest) => some (String.mk (l.map Char.ofNat), rest)
  | none => none

/-- bincode deserialization of `ClientPacket`: `u32` tag, then the payload.
Decoding the `Auth` payload always fails (internally tagged `Credentials`,
see `decodeCredentials`). -/
def decodeClientPacket (b : List Nat) : Except String (ClientPacket × List Nat) :=
  match u32Dec b with
  | none => .error "io error: unexpected end of file"
  | some (t, rest) =>
    if t = 0 then
      match decodeCredentials rest with
      | .ok cr => .ok (.Auth cr.1, cr.2)
      | .error e => .error e
    else if t = 1 then
      match bytesDec rest with
      | some (payload, r) => .ok (.Data payload, r)
      | none => .error "io error: unexpected end of file"
    else if t = 2 then .ok (.Ping, rest)
    else if t = 3 then .ok (.Disconnect, rest)
    else if t = 4 then
      if KEY_SIZE ≤ rest.length then .ok (.KeyExchange (rest.take KEY_SIZE), rest.drop KEY_SIZE)
      else .error "io error: unexpected end of file"
    else .error "invalid value: unknown variant tag"

/-- bincode deserialization of `ServerPacket`: `u32` tag, then the payload. -/
def decodeServerPacket (b : List Nat) : Except String (ServerPacket × List Nat) :=
  match u32Dec b with
  | none => .error "io error: unexpected end of file"
  | some (t, rest) =>
    if t = 0 then .ok (.AuthOk, rest)
    else if t = 1 then
      match strDec rest with
      | some (msg, r) => .ok (.AuthError msg, r)
      | none => .error "io error: unexpected end of file"
    else if t = 2 then
      match bytesDec rest with
      | some (payload, r) => .ok (.Data payload, r)
      | none => .error "io error: unexpected end of file"
    else if t = 3 then
      match strDec rest with
      | some (msg, r) => .ok (.Error msg, r)
      | none => .error "io error: unexpected end of file"
    else if t = 4 then .ok (.Pong, rest)
    else if t = 5 then
      match strDec rest with
      | some (reason, r) => .ok (.Disconnect reason, r)
      | none => .error "io error: unexpected end of file"
    else if t = 6 then
      if KEY_SIZE ≤ rest.length then .ok (.KeyExchange (rest.take KEY_SIZE), rest.drop KEY_SIZE)
      else .error "io error: unexpected end of file"
    else .error "invalid value: unknown variant tag"


/-! ## Codec round-trip lemmas -/

theorem u32Dec_u32LE (t : Nat) (r : List Nat) (ht : t < 2 ^ 32) :
    u32Dec (u32LE t ++ r) = some (t, r) := by
  have hlen : (u32LE t).length = 4 := length_toLEBytes 4 t
  have h4 : 4 ≤ (u32LE t ++ r).length := by simp [hlen]
  unfold u32Dec
  rw [if_pos h4, List.take_left' hlen, List.drop_left' hlen]
  have : fromLEBytes (u32LE t) = t := by
    rw [u32LE, fromLEBytes_toLEBytes]
    exact Nat.mod_eq_of_lt (by calc t < 2 ^ 32 := ht
                                 _ = 256 ^ 4 := by norm_num)
  rw [this]

theorem bytesDec_bytesEnc (l r : List Nat) (hl : l.length < 2 ^ 64) :
    bytesDec (bytesEnc l ++ r) = some (l, r) := by
  have hlen : (u64LE l.length).length = 8 := length_toLEBytes 8 l.length
  have h8 : 8 ≤ (bytesEnc l ++ r).length := by simp [bytesEnc, hlen]
  have hsplit : bytesEnc l ++ r = u64LE l.length ++ (l ++ r) := by
    simp [bytesEnc]
  unfold bytesDec
  rw [if_pos h8, hsplit, List.take_left' hlen, List.drop_left' hlen]
  have hval : fromLEBytes (u64LE l.length) = l.length := by
    rw [u64LE, fromLEBytes_toLEBytes]
    exact Nat.mod_eq_of_lt (by calc l.length < 2 ^ 64 := hl
                                 _ = 256 ^ 8 := by norm_num)
  rw [hval, if_pos (by simp), List.take_left, List.drop_left]

theorem strDec_strEnc (s : String) (r : List Nat) (hl : (strWire s).length < 2 ^ 64) :
    strDec (strEnc s ++ r) = some (s, r) := by
  have henc : strEnc s = bytesEnc (strWire s) := rfl
  unfold strDec
  rw [henc, bytesDec_bytesEnc (strWire s) r hl]
  have : (strWire s).map Char.ofNat = s.toList := by
    simp [strWire, List.map_map, Function.comp_def, Char.ofNat_toNat]
  simp [this]

/-! ## C6: wire numbering of the tagged unions

The claim's numbering tables, written out exactly as the claim (and §6 of the
spec) list them. -/

def claimClientTag : ClientPacket → Nat
  | .Auth _ => 0
  | .Data _ => 1
  | .Ping => 2
  | .Disconnect => 3
  | .KeyExchange _ => 4

def claimServerTag : ServerPacket → Nat
  | .AuthOk => 0
  | .AuthError _ => 1
  | .Data _ => 2
  | .Pong => 3
  | .Error _ => 4
  | .Disconnect _ => 5
  | .KeyExchange _ => 6

/-- The numbering actually produced by the declaration order of
`src/vpn-shared/src/packet.rs`: `Error` is declared before `Pong`, so
`Error = 3` and `Pong = 4` (the claim has them swapped). -/
def declServerTag : ServerPacket → Nat
  | .AuthOk => 0
  | .AuthError _ => 1
  | .Data _ => 2
  | .Error _ => 3
  | .Pong => 4
  | .Disconnect _ => 5
  | .KeyExchange _ => 6

theorem take4_u32LE_append (t : Nat) (r : List Nat) : (u32LE t ++ r).take 4 = u32LE t :=
  List.take_left' (length_toLEBytes 4 t)

theorem take4_u32LE (t : Nat) : (u32LE t).take 4 = u32LE t :=
  List.take_of_length_le (le_of_eq (length_toLEBytes 4 t))

/-- C6 counterexample: `ServerPacket::Pong` is encoded with variant tag 4 and
`ServerPacket::Error` with tag 3, not 3 and 4 as the claim states. -/
theorem serverTag_pong_error_swapped :
    (encodeServerPacket ServerPacket.Pong).take 4 ≠ u32LE 3 ∧
      (encodeServerPacket (ServerPacket.Error "")).take 4 ≠ u32LE 4 ∧
      (encodeServerPacket ServerPacket.Pong).take 4 = u32LE 4 ∧
      (encodeServerPacket (ServerPacket.Error "")).take 4 = u32LE 3 := by
  refine ⟨by decide, ?_, by decide, ?_⟩ <;>
    simp [encodeServerPacket, strEnc, strWire, u32LE, u64LE, toLEBytes, List.take]

/-- C6 (amended): every `ClientPacket` encoding starts with the `u32` tag the
claim lists (`Auth=0, Data=1, Ping=2, Disconnect=3, KeyExchange=4`), and every
`ServerPacket` encoding starts with the tag given by the declaration order of
`src/vpn-shared/src/packet.rs` (`AuthOk=0, AuthError=1, Data=2, Error=3,
Pong=4, Disconnect=5, KeyExchange=6`) — with `Pong` and `Error` swapped
relative to the claim. -/
theorem packet_wire_tags (m : ClientPacket) (s : ServerPacket) :
    (encodeClientPacket m).take 4 = u32LE (claimClientTag m) ∧
      (encodeServerPacket s).take 4 = u32LE (declServerTag s) := by
  constructor
  · cases m <;>
      simp only [encodeClientPacket, claimClientTag, take4_u32LE_append, take4_u32LE]
  · cases s <;>
      simp only [encodeServerPacket, declServerTag, take4_u32LE_append, take4_u32LE]


/-! ## AEAD envelope (ChaCha20-Poly1305), modelled structurally

ChaCha20-Poly1305 is a stream cipher plus a MAC over the ciphertext: the
library's `encrypt` returns `ciphertext ‖ tag(16)` where `ciphertext` is the
plaintext XORed with a keystream determined by `(key, nonce)`, and the tag is a
16-byte function of `(key, nonce, ciphertext)`; `decrypt` recomputes the tag,
compares, and XORs back. The keystream `ks` and the MAC `macF` are abstract
parameters — every theorem below holds for any choice, so in particular for the
concrete cipher. The nonce the Rust code draws from `rand::thread_rng` is
passed in as the `nonce` argument. -/

def keystreamBytes (ks : List Nat → List Nat → Nat → Nat)
    (key nonce : List Nat) (len : Nat) : List Nat :=
  (List.range len).map (ks key nonce)

def xorBytes (p s : List Nat) : List Nat := List.zipWith Nat.xor p s

/-- `EncryptedPacket::encrypt` (generic over the serializer, as the Rust code
is generic over `P: Serialize`): serialize, AEAD-encrypt, split the library
output at `len - TAG_SIZE` into body and tag. -/
def EncryptedPacket.encryptWith (ks : List Nat → List Nat → Nat → Nat)
    (macF : List Nat → List Nat → List Nat → Fin TAG_SIZE → Nat)
    {α : Type} (ser : α → List Nat) (key nonce : List Nat) (m : α) : EncryptedPacket :=
  let packet := ser m
  let ciphertext :=
    xorBytes packet (keystreamBytes ks key nonce packet.length) ++
      List.ofFn (macF key nonce (xorBytes packet (keystreamBytes ks key nonce packet.length)))
  let tagStart := ciphertext.length - TAG_SIZE
  { nonce := nonce, data := ciphertext.take tagStart, tag := ciphertext.drop tagStart }

/-- `EncryptedPacket::decrypt` (generic over the deserializer): re-append the
tag to the body, AEAD-decrypt (verify the tag, XOR the keystream back),
then deserialize. -/
def EncryptedPacket.decryptWith (ks : List Nat → List Nat → Nat → Nat)
    (macF : List Nat → List Nat → List Nat → Fin TAG_SIZE → Nat)
    {α : Type} (deser : List Nat → Except String α)
    (p : EncryptedPacket) (key : List Nat) : Except String α :=
  let ciphertext := p.data ++ p.tag
  let tagStart := ciphertext.length - TAG_SIZE
  let ct := ciphertext.take tagStart
  if ciphertext.drop tagStart = List.ofFn (macF key p.nonce ct) then
    match deser (xorBytes ct (keystreamBytes ks key p.nonce ct.length)) with
    | .ok v => .ok v
    | .error e => .error ("Deserialization failed: " ++ e)
  else .error "Decryption failed: aead::Error"

/-- `bincode::deserialize` for `ClientPacket` (trailing bytes ignored, the
bincode 1.x default). -/
def deserializeClientPacket (b : List Nat) : Except String ClientPacket :=
  match decodeClientPacket b with
  | .ok mr => .ok mr.1
  | .error e => .error e

/-- `bincode::deserialize` for `ServerPacket`. -/
def deserializeServerPacket (b : List Nat) : Except String ServerPacket :=
  match decodeServerPacket b with
  | .ok mr => .ok mr.1
  | .error e => .error e

theorem length_keystreamBytes (ks : List Nat → List Nat → Nat → Nat)
    (key nonce : List Nat) (len : Nat) :
    (keystreamBytes ks key nonce len).length = len := by
  simp [keystreamBytes]

theorem natXorXor (a b : Nat) : Nat.xor (Nat.xor a b) b = a :=
  Nat.xor_cancel_right b a

theorem xorBytes_cancel (p s : List Nat) (h : p.length ≤ s.length) :
    xorBytes (xorBytes p s) s = p := by
  induction p generalizing s with
  | nil => simp [xorBytes]
  | cons a p ih =>
    cases s with
    | nil => simp at h
    | cons b s =>
      have hh : p.length ≤ s.length := by simpa using h
      simp only [xorBytes, List.zipWith] at *
      rw [natXorXor]
      exact congrArg (a :: ·) (ih s hh)

theorem length_xorBytes (p s : List Nat) : (xorBytes p s).length = min p.length s.length := by
  simp [xorBytes]

/-- Unfolding lemma for `encryptWith` (definitional). -/
theorem encryptWith_def (ks : List Nat → List Nat → Nat → Nat)
    (macF : List Nat → List Nat → List Nat → Fin TAG_SIZE → Nat)
    {α : Type} (ser : α → List Nat) (key nonce : List Nat) (m : α) :
    EncryptedPacket.encryptWith ks macF ser key nonce m =
      { nonce := nonce
        data := (xorBytes (ser m) (keystreamBytes ks key nonce (ser m).length) ++
            List.ofFn (macF key nonce
              (xorBytes (ser m) (keystreamBytes ks key nonce (ser m).length)))).take
          ((xorBytes (ser m) (keystreamBytes ks key nonce (ser m).length) ++
            List.ofFn (macF key nonce
              (xorBytes (ser m) (keystreamBytes ks key nonce (ser m).length)))).length -
            TAG_SIZE)
        tag := (xorBytes (ser m) (keystreamBytes ks key nonce (ser m).length) ++
            List.ofFn (macF key nonce
              (xorBytes (ser m) (keystreamBytes ks key nonce (ser m).length)))).drop
          ((xorBytes (ser m) (keystreamBytes ks key nonce (ser m).length) ++
            List.ofFn (macF key nonce
              (xorBytes (ser m) (keystreamBytes ks key nonce (ser m).length)))).length -
            TAG_SIZE) } := rfl

/-- Unfolding lemma for `decryptWith` on an explicit record (definitional). -/
theorem decryptWith_mk (ks : List Nat → List Nat → Nat → Nat)
    (macF : List Nat → List Nat → List Nat → Fin TAG_SIZE → Nat)
    {α : Type} (deser : List Nat → Except String α) (nonce d t key : List Nat) :
    EncryptedPacket.decryptWith ks macF deser ⟨nonce, d, t⟩ key =
      (if (d ++ t).drop ((d ++ t).length - TAG_SIZE) =
          List.ofFn (macF key nonce ((d ++ t).take ((d ++ t).length - TAG_SIZE))) then
        match deser (xorBytes ((d ++ t).take ((d ++ t).length - TAG_SIZE))
            (keystreamBytes ks key nonce
              (((d ++ t).take ((d ++ t).length - TAG_SIZE)).length))) with
        | .ok v => .ok v
        | .error e => .error ("Deserialization failed: " ++ e)
      else .error "Decryption failed: aead::Error") := rfl

/-- AEAD round trip on raw bytes: decrypting an encryption with the same key
recovers the serialized plaintext and hands it to the deserializer. -/
theorem decryptWith_encryptWith (ks : List Nat → List Nat → Nat → Nat)
    (macF : List Nat → List Nat → List Nat → Fin TAG_SIZE → Nat)
    {α : Type} (ser : α → List Nat) (deser : List Nat → Except String α)
    (key nonce : List Nat) (m : α) :
    EncryptedPacket.decryptWith ks macF deser
        (EncryptedPacket.encryptWith ks macF ser key nonce m) key =
      match deser (ser m) with
      | .ok v => .ok v
      | .error e => .error ("Deserialization failed: " ++ e) := by
  have hctlen : (xorBytes (ser m) (keystreamBytes ks key nonce (ser m).length)).length =
      (ser m).length := by
    rw [length_xorBytes, length_keystreamBytes, Nat.min_self]
  set ct := xorBytes (ser m) (keystreamBytes ks key nonce (ser m).length) with hct
  have hsplitlen : (ct ++ List.ofFn (macF key nonce ct)).length - TAG_SIZE = ct.length := by
    simp [TAG_SIZE]
  rw [encryptWith_def]
  simp only [← hct]
  rw [hsplitlen, List.take_left, List.drop_left, decryptWith_mk]
  rw [hsplitlen, List.take_left, List.drop_left, if_pos rfl]
  have hplain : xorBytes ct (keystreamBytes ks key nonce ct.length) = ser m := by
    rw [hctlen, hct]
    exact xorBytes_cancel _ _ (by rw [length_keystreamBytes])
  rw [hplain]


/-! ## C7: the failing round trip for `Auth` messages -/

/-- A concrete (degenerate) keystream for closed evaluations. -/
def zeroKeystream : List Nat → List Nat → Nat → Nat := fun _ _ _ => 0

/-- A concrete (degenerate) MAC for closed evaluations. -/
def zeroMacF : List Nat → List Nat → List Nat → Fin TAG_SIZE → Nat := fun _ _ _ _ => 0

/-- C7 (failing input, evaluated): encrypting
`ClientPacket::Auth(Credentials::Password{"test_user", "test_pass"})` under the
all-zero key succeeds, but decrypting it with the same key fails at
`bincode::deserialize`, because the internally tagged `Credentials` requires
`deserialize_any`, which bincode rejects — the round trip does not yield `m`. -/
theorem auth_packet_roundtrip_fails :
    EncryptedPacket.decryptWith zeroKeystream zeroMacF deserializeClientPacket
        (EncryptedPacket.encryptWith zeroKeystream zeroMacF encodeClientPacket
          (List.replicate KEY_SIZE 0) (List.replicate NONCE_SIZE 0)
          (ClientPacket.Auth (.Password ⟨"test_user", "test_pass"⟩)))
        (List.replicate KEY_SIZE 0) =
      .error
        "Deserialization failed: Bincode does not support the serde::Deserializer::deserialize_any method" := by
  rw [decryptWith_encryptWith]
  rfl

/-! ## C8: session-key derivation (both endpoints)

Server side (src/vpn-server/src/handle_packet.rs, `handle_key_exchange`):

    let mut session_key = [0u8; KEY_SIZE];
    for i in 0..KEY_SIZE { session_key[i] = client_key[i] ^ server_key[i]; }

Client side (src/vpn-client/src/client.rs, `Client::connect`):

    for i in 0..KEY_SIZE { session_key[i] ^= server_key[i]; }

where the client's `session_key` starts as its own random `c`. -/

/-- The server's derivation loop: write `client_key[i] ^ server_key[i]` into a
zero-initialised 32-byte array, index by index. -/
def serverSessionKey (client_key server_key : List Nat) : List Nat :=
  (List.range KEY_SIZE).foldl
    (fun acc i => acc.set i (Nat.xor (client_key.getD i 0) (server_key.getD i 0)))
    (List.replicate KEY_SIZE 0)

/-- The client's derivation loop: XOR `server_key[i]` into its own random,
in place, index by index. -/
def clientSessionKey (c server_key : List Nat) : List Nat :=
  (List.range KEY_SIZE).foldl
    (fun acc i => acc.set i (Nat.xor (acc.getD i 0) (server_key.getD i 0))) c

/-- Elementwise description of an index-by-index write loop whose value at `i`
may read the not-yet-overwritten cell `acc[i]`. -/
theorem foldl_set_getElem (g : Nat → Nat → Nat) (init : List Nat) (k : Nat) (j : Nat) :
    ((List.range k).foldl (fun a i => a.set i (g (a.getD i 0) i)) init)[j]? =
      if j < k ∧ j < init.length then some (g (init.getD j 0) j) else init[j]? := by
  induction k with
  | zero =>
    simp [List.range_zero]
  | succ k ih =>
    rw [List.range_succ, List.foldl_append, List.foldl_cons, List.foldl_nil,
      List.getElem?_set]
    have hlen : ∀ m, ((List.range m).foldl
        (fun a i => a.set i (g (a.getD i 0) i)) init).length = init.length := by
      intro m
      induction m with
      | zero => simp
      | succ m ihm =>
        rw [List.range_succ, List.foldl_append, List.foldl_cons, List.foldl_nil,
          List.length_set, ihm]
    by_cases hkj : k = j
    · subst hkj
      rw [if_pos rfl, hlen]
      by_cases hk : k < init.length
      · rw [if_pos hk, if_pos ⟨Nat.lt_succ_self k, hk⟩]
        congr 1
        rw [List.getD_eq_getElem?_getD, ih, List.getD_eq_getElem?_getD]
        rw [if_neg (by omega)]
      · rw [if_neg hk, if_neg (by omega)]
        symm
        exact List.getElem?_eq_none (by omega)
    · rw [if_neg hkj, ih]
      by_cases hj : j < k ∧ j < init.length
      · rw [if_pos hj, if_pos ⟨by omega, hj.2⟩]
      · rw [if_neg hj, if_neg (by omega)]

/-- C8: for every 32-byte client random `c` and server random `s`, the session
key installed by the server's key-exchange loop equals the one the client's
loop computes, and both equal the bytewise XOR `c XOR s`. -/
theorem session_key_symmetry (c s : List Nat)
    (hc : c.length = KEY_SIZE) (hs : s.length = KEY_SIZE) :
    serverSessionKey c s = List.zipWith Nat.xor c s ∧
      clientSessionKey c s = List.zipWith Nat.xor c s := by
  have hzip : ∀ j : Nat, (List.zipWith Nat.xor c s)[j]? =
      if j < KEY_SIZE then some (Nat.xor (c.getD j 0) (s.getD j 0)) else none := by
    intro j
    rw [List.getElem?_zipWith]
    by_cases hj : j < KEY_SIZE
    · rw [List.getElem?_eq_getElem (by omega), List.getElem?_eq_getElem (by omega),
        if_pos hj]
      rw [List.getD_eq_getElem?_getD, List.getD_eq_getElem?_getD,
        List.getElem?_eq_getElem (by omega), List.getElem?_eq_getElem (by omega)]
      rfl
    · rw [List.getElem?_eq_none (by omega), List.getElem?_eq_none (by omega), if_neg hj]
  constructor
  · apply List.ext_getElem?
    intro j
    have h1 : (serverSessionKey c s)[j]? =
        if j < KEY_SIZE ∧ j < (List.replicate KEY_SIZE (0 : Nat)).length then
          some (Nat.xor (c.getD j 0) (s.getD j 0))
        else (List.replicate KEY_SIZE (0 : Nat))[j]? :=
      foldl_set_getElem (fun _ i => Nat.xor (c.getD i 0) (s.getD i 0))
        (List.replicate KEY_SIZE 0) KEY_SIZE j
    rw [h1, hzip]
    by_cases hj : j < KEY_SIZE
    · rw [if_pos ⟨hj, by simp [hj]⟩, if_pos hj]
    · rw [if_neg (by simp [hj]), if_neg hj]
      exact List.getElem?_eq_none (by simp; omega)
  · apply List.ext_getElem?
    intro j
    have h2 : (clientSessionKey c s)[j]? =
        if j < KEY_SIZE ∧ j < c.length then
          some (Nat.xor (c.getD j 0) (s.getD j 0))
        else (c)[j]? :=
      foldl_set_getElem (fun v i => Nat.xor v (s.getD i 0)) c KEY_SIZE j
    rw [h2, hzip]
    by_cases hj : j < KEY_SIZE
    · rw [if_pos ⟨hj, by omega⟩, if_pos hj]
    · rw [if_neg (by omega), if_neg hj]
      exact List.getElem?_eq_none (by omega)

/-- Witness for C8 at concrete 32-byte keys. -/
theorem session_key_symmetry_witness :
    (List.replicate 32 5).length = KEY_SIZE ∧ (List.range 32).length = KEY_SIZE ∧
      (serverSessionKey (List.replicate 32 5) (List.range 32) =
          List.zipWith Nat.xor (List.replicate 32 5) (List.range 32) ∧
        clientSessionKey (List.replicate 32 5) (List.range 32) =
          List.zipWith Nat.xor (List.replicate 32 5) (List.range 32)) :=
  ⟨by decide, by decide,
   session_key_symmetry (List.replicate 32 5) (List.range 32) (by decide) (by decide)⟩


/-! ## Server state (src/vpn-server/src/server.rs)

Addresses are abstract (`Addr := Nat` stands for `SocketAddr`), instants are
abstract ticks (`Nat` stands for `std::time::Instant`, passed in for each
`Instant::now()` the code performs). The `DashMap<SocketAddr, ConnectedClient>`
is modelled as an association list with at most one entry per address
(`tableInsert` removes any previous binding, as `DashMap::insert` replaces). -/

abbrev Addr := Nat

structure ConnectedClient where
  addr : Addr
  last_seen : Nat
  timeout : Nat
  key : List Nat
deriving Repr, DecidableEq

/-- `ConnectedClient::new` (the `Instant::now()` is the `now` argument). -/
def ConnectedClient.new (key : List Nat) (addr : Addr) (timeout : Nat) (now : Nat) :
    ConnectedClient :=
  { addr := addr, last_seen := now, timeout := timeout, key := key }

def tableGet (t : List (Addr × ConnectedClient)) (a : Addr) : Option ConnectedClient :=
  (t.find? (fun e => e.1 == a)).map (·.2)

def tableRemove (t : List (Addr × ConnectedClient)) (a : Addr) :
    List (Addr × ConnectedClient) :=
  t.filter (fun e => ¬ e.1 == a)

def tableInsert (t : List (Addr × ConnectedClient)) (a : Addr) (cl : ConnectedClient) :
    List (Addr × ConnectedClient) :=
  (a, cl) :: tableRemove t a

/-- `DashMap::get_mut` followed by a field mutation. -/
def tableUpdate (t : List (Addr × ConnectedClient)) (a : Addr)
    (f : ConnectedClient → ConnectedClient) : List (Addr × ConnectedClient) :=
  t.map (fun e => if e.1 == a then (e.1, f e.2) else e)

def tableContains (t : List (Addr × ConnectedClient)) (a : Addr) : Bool :=
  (tableGet t a).isSome

/-- The `Server` struct fields the handlers read (socket and bind address are
I/O handles, external to the protocol state). -/
structure Server where
  max_clients : Nat
  client_timeout : Nat
  client_credentials : List Credentials
  clients : List (Addr × ConnectedClient)
deriving Repr, DecidableEq

/-- A datagram the server passed to `socket.send_to`: destination, message,
and the AEAD key the send used. -/
structure Sent where
  addr : Addr
  packet : ServerPacket
  key : List Nat
deriving Repr, DecidableEq

/-- `Server::get_client_key`: session key of the address, or the all-zero
bootstrap key if it has no session. -/
def Server.get_client_key (s : Server) (addr : Addr) : List Nat :=
  match tableGet s.clients addr with
  | some cl => cl.key
  | none => List.replicate KEY_SIZE 0

/-- `Server::send_packet` (encrypts under `get_client_key`). -/
def Server.send_packet (s : Server) (p : ServerPacket) (addr : Addr) : Sent :=
  ⟨addr, p, s.get_client_key addr⟩

/-- `Server::send_unencrypted_packet` (encrypts under the all-zero key). -/
def Server.send_unencrypted_packet (_s : Server) (p : ServerPacket) (addr : Addr) : Sent :=
  ⟨addr, p, List.replicate KEY_SIZE 0⟩

/-- `Server::handle_auth` (src/vpn-server/src/handle_packet.rs, lines 47-64):
credential not accepted → `AuthError("Invalid credentials")`, state unchanged;
table at or above `max_clients` → remove this address, `AuthError("Server is
full")`; otherwise → `AuthOk`. Session existence is never consulted and no
session is created. -/
def Server.handle_auth (s : Server) (credentials : Credentials) (src_addr : Addr) :
    Server × List Sent :=
  if ¬ s.client_credentials.contains credentials then
    (s, [s.send_packet (.AuthError "Invalid credentials") src_addr])
  else if s.max_clients ≤ s.clients.length then
    let s' : Server := { s with clients := tableRemove s.clients src_addr }
    (s', [s'.send_packet (.AuthError "Server is full") src_addr])
  else
    (s, [s.send_packet .AuthOk src_addr])

/-- Result of `Server::assert_auth` (src/vpn-server/src/server.rs, lines
134-144): no session → send `AuthError("Invalid credentials")` and bail;
otherwise refresh `last_seen` and continue. Only session *existence* is
checked; no authenticated flag exists on `ConnectedClient`. -/
def Server.assert_auth (s : Server) (src_addr : Addr) (now : Nat) :
    Except Sent Server :=
  if ¬ tableContains s.clients src_addr then
    .error (s.send_packet (.AuthError "Invalid credentials") src_addr)
  else
    .ok { s with clients :=
            tableUpdate s.clients src_addr (fun cl => { cl with last_seen := now }) }

/-- `Server::handle_ping`: `assert_auth`, then reply `Pong`. -/
def Server.handle_ping (s : Server) (src_addr : Addr) (now : Nat) : Server × List Sent :=
  match s.assert_auth src_addr now with
  | .error sent => (s, [sent])
  | .ok s' => (s', [s'.send_packet .Pong src_addr])

/-- `Server::handle_data`: `assert_auth`, refresh `last_seen` again, no reply
(payload forwarding is a TODO in the source). -/
def Server.handle_data (s : Server) (_payload : List Nat) (src_addr : Addr) (now : Nat) :
    Server × List Sent :=
  match s.assert_auth src_addr now with
  | .error sent => (s, [sent])
  | .ok s' =>
    ({ s' with clients :=
         tableUpdate s'.clients src_addr (fun cl => { cl with last_seen := now }) }, [])

/-- `Server::handle_disconnect`: remove the session if present (both branches
only differ in logging). -/
def Server.handle_disconnect (s : Server) (src_addr : Addr) : Server × List Sent :=
  ({ s with clients := tableRemove s.clients src_addr }, [])

/-- `Server::handle_key_exchange` (src/vpn-server/src/handle_packet.rs, lines
110-132): derive the session key, insert a fresh `ConnectedClient`
(unconditionally — no capacity check), re-write key and `last_seen` through
`get_mut`, reply `KeyExchange(server_key)` under the bootstrap key. The random
`server_key` the code draws with `fill_random_bytes` is the `server_key`
argument. -/
def Server.handle_key_exchange (s : Server) (client_key : List Nat) (src_addr : Addr)
    (server_key : List Nat) (now : Nat) : Server × List Sent :=
  let session_key := serverSessionKey client_key server_key
  let client := ConnectedClient.new session_key src_addr s.client_timeout now
  let t1 := tableInsert s.clients src_addr client
  let t2 := tableUpdate t1 src_addr
    (fun cl => { cl with key := session_key, last_seen := now })
  ({ s with clients := t2 },
   [s.send_unencrypted_packet (.KeyExchange server_key) src_addr])

/-- `Server::handle`: dispatch on the decrypted message. The per-step
nondeterminism (`Instant::now`, the key-exchange random) is passed in. -/
def Server.handle (s : Server) (packet : ClientPacket) (src_addr : Addr)
    (server_key : List Nat) (now : Nat) : Server × List Sent :=
  match packet with
  | .Auth credentials => s.handle_auth credentials src_addr
  | .Data payload => s.handle_data payload src_addr now
  | .Ping => s.handle_ping src_addr now
  | .Disconnect => s.handle_disconnect src_addr
  | .KeyExchange client_key => s.handle_key_exchange client_key src_addr server_key now


/-! ## The receive loop (src/vpn-server/src/server.rs, `Server::run`)

One iteration of the `loop` body: `from_bytes` is followed by `?`, so its
error propagates out of `run` (ending the loop); a decrypt/deserialize error
is only logged and the loop continues; a decrypted packet is dispatched to
`Server::handle` (whose own errors are only logged by the spawned task). -/

def Server.recvStep (s : Server) (ks : List Nat → List Nat → Nat → Nat)
    (macF : List Nat → List Nat → List Nat → Fin TAG_SIZE → Nat)
    (datagram : List Nat) (src_addr : Addr) (server_key : List Nat) (now : Nat) :
    Except String (Server × List Sent) :=
  match EncryptedPacket.from_bytes datagram with
  | .error e => .error e
  | .ok packet =>
    match packet.decryptWith ks macF deserializeClientPacket
        (match tableGet s.clients src_addr with
         | some cl => cl.key
         | none => List.replicate KEY_SIZE 0) with
    | .ok msg => .ok (s.handle msg src_addr server_key now)
    | .error _ => .ok (s, [])

/-! ## Event traces over the handlers -/

/-- One handler invocation: source address, decrypted message, and the
nondeterministic inputs of that step (the key-exchange random, the clock). -/
structure Event where
  src_addr : Addr
  packet : ClientPacket
  server_key : List Nat
  now : Nat
deriving Repr, DecidableEq

/-- Run a sequence of handler invocations, accumulating sent datagrams. -/
def Server.runTrace (s : Server) : List Event → Server × List Sent
  | [] => (s, [])
  | e :: rest =>
    let step := s.handle e.packet e.src_addr e.server_key e.now
    let next := step.1.runTrace rest
    (next.1, step.2 ++ next.2)

/-- Source addresses of the `KeyExchange` events of a trace. -/
def kxAddrs (evs : List Event) : List Addr :=
  evs.filterMap fun e =>
    match e.packet with
    | .KeyExchange _ => some e.src_addr
    | _ => none

/-! ## Session-table key lemmas -/

def tkeys (t : List (Addr × ConnectedClient)) : List Addr := t.map Prod.fst

theorem tkeys_tableUpdate (t : List (Addr × ConnectedClient)) (a : Addr)
    (f : ConnectedClient → ConnectedClient) : tkeys (tableUpdate t a f) = tkeys t := by
  unfold tkeys tableUpdate
  rw [List.map_map]
  apply List.map_congr_left
  intro e _
  by_cases h : e.1 = a <;> simp [h]

theorem tkeys_tableRemove_sublist (t : List (Addr × ConnectedClient)) (a : Addr) :
    List.Sublist (tkeys (tableRemove t a)) (tkeys t) :=
  List.Sublist.map Prod.fst (List.filter_sublist t)

theorem not_mem_tkeys_tableRemove (t : List (Addr × ConnectedClient)) (a : Addr) :
    a ∉ tkeys (tableRemove t a) := by
  unfold tkeys tableRemove
  intro hmem
  obtain ⟨e, he, hfst⟩ := List.mem_map.mp hmem
  have hp := (List.mem_filter.mp he).2
  rw [hfst] at hp
  simp at hp

theorem tkeys_tableInsert (t : List (Addr × ConnectedClient)) (a : Addr)
    (cl : ConnectedClient) : tkeys (tableInsert t a cl) = a :: tkeys (tableRemove t a) := rfl

theorem tableContains_false_remove_eq (t : List (Addr × ConnectedClient)) (a : Addr)
    (h : tableContains t a = false) : tableRemove t a = t := by
  have hfind : t.find? (fun e => e.1 == a) = none := by
    unfold tableContains tableGet at h
    cases hf : t.find? (fun e => e.1 == a) with
    | none => rfl
    | some e => rw [hf] at h; simp at h
  have hall := List.find?_eq_none.mp hfind
  unfold tableRemove
  apply List.filter_eq_self.mpr
  intro e he
  have := hall e he
  simpa using this

theorem tableContains_tableRemove_self (t : List (Addr × ConnectedClient)) (a : Addr) :
    tableContains (tableRemove t a) a = false := by
  unfold tableContains tableGet
  cases hfind : (tableRemove t a).find? (fun e => e.1 == a) with
  | none => simp [hfind]
  | some e =>
    exfalso
    have hmem := List.mem_of_find?_eq_some hfind
    have hpred := List.find?_some hfind
    have heq : e.1 = a := by simpa using hpred
    have hmem2 : e.1 ∈ tkeys (tableRemove t a) := List.mem_map_of_mem Prod.fst hmem
    rw [heq] at hmem2
    exact not_mem_tkeys_tableRemove t a hmem2


theorem assert_auth_error_eq (s : Server) (a : Addr) (now : Nat)
    (h : tableContains s.clients a = false) :
    s.assert_auth a now = .error ⟨a, .AuthError "Invalid credentials", s.get_client_key a⟩ := by
  unfold Server.assert_auth
  rw [if_pos (by simp [h])]
  rfl

theorem assert_auth_ok_eq (s : Server) (a : Addr) (now : Nat)
    (h : tableContains s.clients a = true) :
    s.assert_auth a now =
      .ok { s with clients :=
              tableUpdate s.clients a (fun cl => { cl with last_seen := now }) } := by
  unfold Server.assert_auth
  rw [if_neg (by simp [h])]

/-! ## C1: a malformed datagram terminates the receive loop -/

/-- C1 (what the code does): when the received datagram is too short for the
envelope (`< NONCE_SIZE + TAG_SIZE = 28` bytes), `EncryptedPacket::from_bytes`
fails, and the `?` operator propagates the error out of `Server::run` — the
receive loop ends with `Err("Packet too short")` instead of logging and
continuing (decrypt failures one line later *are* logged and continued). -/
theorem short_datagram_ends_run (s : Server) (ks : List Nat → List Nat → Nat → Nat)
    (macF : List Nat → List Nat → List Nat → Fin TAG_SIZE → Nat)
    (d : List Nat) (src : Addr) (sk : List Nat) (now : Nat)
    (hd : d.length < NONCE_SIZE + TAG_SIZE) :
    s.recvStep ks macF d src sk now = .error "Packet too short" := by
  unfold Server.recvStep EncryptedPacket.from_bytes
  rw [if_pos hd]

/-- Witness for C1 at the empty datagram and an empty server. -/
theorem short_datagram_ends_run_witness :
    ([] : List Nat).length < NONCE_SIZE + TAG_SIZE ∧
      (Server.mk 10 30 [] []).recvStep zeroKeystream zeroMacF [] 0
          (List.replicate 32 0) 0 =
        .error "Packet too short" :=
  ⟨by decide,
   short_datagram_ends_run (Server.mk 10 30 [] []) zeroKeystream zeroMacF [] 0
     (List.replicate 32 0) 0 (by decide)⟩

/-! ## C5: Pong requires only session existence, not authentication -/

/-- C5 counterexample: a client that only performed a key exchange (the server
never sent `AuthOk` to anyone in this trace) still gets a `Pong` for its
`Ping`. -/
theorem pong_without_authok :
    (Sent.mk 0 ServerPacket.Pong (List.replicate 32 3)) ∈
        ((Server.mk 10 30 [] []).runTrace
          [⟨0, .KeyExchange (List.replicate 32 1), List.replicate 32 2, 0⟩,
           ⟨0, .Ping, List.replicate 32 0, 1⟩]).2 ∧
      ∀ x ∈ ((Server.mk 10 30 [] []).runTrace
          [⟨0, .KeyExchange (List.replicate 32 1), List.replicate 32 2, 0⟩,
           ⟨0, .Ping, List.replicate 32 0, 1⟩]).2, x.packet ≠ ServerPacket.AuthOk := by
  decide

/-- C5 (amended): `handle_ping` replies `Pong` (and refreshes `last_seen`)
exactly when the source address has a session — whether or not that session
ever completed `AuthOk` (`ConnectedClient` has no authenticated flag and
`assert_auth` checks only existence); otherwise it sends
`AuthError("Invalid credentials")`. -/
theorem handle_ping_iff_session (s : Server) (a : Addr) (now : Nat) :
    (((s.handle_ping a now).2.map Sent.packet = [ServerPacket.Pong]) ↔
        tableContains s.clients a = true) ∧
      (tableContains s.clients a = true →
        (s.handle_ping a now).1.clients =
          tableUpdate s.clients a (fun cl => { cl with last_seen := now })) := by
  by_cases h : tableContains s.clients a = true
  · unfold Server.handle_ping
    rw [assert_auth_ok_eq s a now h]
    exact ⟨⟨fun _ => h, fun _ => rfl⟩, fun _ => rfl⟩
  · unfold Server.handle_ping
    rw [assert_auth_error_eq s a now (by simpa using h)]
    constructor
    · simp only [List.map_cons, List.map_nil]
      constructor
      · intro hcontra
        exact absurd (List.head_eq_of_cons_eq hcontra) (by simp)
      · intro hc; exact absurd hc h
    · intro hc; exact absurd hc h

/-- Witness for C5's amended theorem at a server holding one key-exchanged
(never authenticated) session. -/
theorem handle_ping_iff_session_witness :
    ((((Server.mk 10 30 [] [(0, ⟨0, 0, 30, List.replicate 32 3⟩)]).handle_ping 0 5).2.map
          Sent.packet = [ServerPacket.Pong]) ↔
        tableContains (Server.mk 10 30 [] [(0, ⟨0, 0, 30, List.replicate 32 3⟩)]).clients 0 =
          true) ∧
      (tableContains (Server.mk 10 30 [] [(0, ⟨0, 0, 30, List.replicate 32 3⟩)]).clients 0 =
          true →
        ((Server.mk 10 30 [] [(0, ⟨0, 0, 30, List.replicate 32 3⟩)]).handle_ping 0 5).1.clients =
          tableUpdate (Server.mk 10 30 [] [(0, ⟨0, 0, 30, List.replicate 32 3⟩)]).clients 0
            (fun cl => { cl with last_seen := 5 })) :=
  handle_ping_iff_session (Server.mk 10 30 [] [(0, ⟨0, 0, 30, List.replicate 32 3⟩)]) 0 5


/-! ## C3: which AuthError removes the session -/

/-- C3 counterexample: the server holds a provisional session for address 0
(created by a key exchange); an `Auth` with a wrong credential is answered
`AuthError("Invalid credentials")` and the session is *not* removed. -/
theorem authError_leaves_session :
    (((Server.mk 10 30 [Credentials.Password ⟨"u", "p"⟩]
          [(0, ⟨0, 0, 30, List.replicate 32 3⟩)]).handle_auth
        (Credentials.Password ⟨"u", "x"⟩) 0).2.map Sent.packet =
      [ServerPacket.AuthError "Invalid credentials"]) ∧
      tableContains ((Server.mk 10 30 [Credentials.Password ⟨"u", "p"⟩]
          [(0, ⟨0, 0, 30, List.replicate 32 3⟩)]).handle_auth
        (Credentials.Password ⟨"u", "x"⟩) 0).1.clients 0 = true := by
  decide

/-- C3 (amended): `handle_auth` removes the session only in the
`AuthError("Server is full")` branch; on `AuthError("Invalid credentials")`
(credential not in the accepted set) the whole server state — including any
provisional session for the source address — is left unchanged. -/
theorem handle_auth_removal (s : Server) (cred : Credentials) (a : Addr) :
    (s.client_credentials.contains cred = false →
        s.handle_auth cred a =
          (s, [s.send_packet (.AuthError "Invalid credentials") a])) ∧
      (s.client_credentials.contains cred = true →
        s.max_clients ≤ s.clients.length →
          (s.handle_auth cred a).1.clients = tableRemove s.clients a ∧
            tableContains (s.handle_auth cred a).1.clients a = false ∧
            (s.handle_auth cred a).2.map Sent.packet =
              [ServerPacket.AuthError "Server is full"]) := by
  constructor
  · intro h
    unfold Server.handle_auth
    rw [if_pos (by simpa using h)]
  · intro h hfull
    unfold Server.handle_auth
    rw [if_neg (by simpa using h), if_pos hfull]
    exact ⟨rfl, tableContains_tableRemove_self s.clients a, rfl⟩

/-- Witness for C3's amended theorem: a full server (max 1, one session) and an
accepted credential. -/
theorem handle_auth_removal_witness :
    ((Server.mk 1 30 [Credentials.Password ⟨"u", "p"⟩]
          [(0, ⟨0, 0, 30, List.replicate 32 3⟩)]).client_credentials.contains
        (Credentials.Password ⟨"u", "p"⟩) = true) ∧
      ((Server.mk 1 30 [Credentials.Password ⟨"u", "p"⟩]
          [(0, ⟨0, 0, 30, List.replicate 32 3⟩)]).max_clients ≤
        (Server.mk 1 30 [Credentials.Password ⟨"u", "p"⟩]
          [(0, ⟨0, 0, 30, List.replicate 32 3⟩)]).clients.length) ∧
      (((Server.mk 1 30 [Credentials.Password ⟨"u", "p"⟩]
            [(0, ⟨0, 0, 30, List.replicate 32 3⟩)]).handle_auth
          (Credentials.Password ⟨"u", "p"⟩) 0).1.clients =
        tableRemove (Server.mk 1 30 [Credentials.Password ⟨"u", "p"⟩]
            [(0, ⟨0, 0, 30, List.replicate 32 3⟩)]).clients 0 ∧
        tableContains ((Server.mk 1 30 [Credentials.Password ⟨"u", "p"⟩]
              [(0, ⟨0, 0, 30, List.replicate 32 3⟩)]).handle_auth
            (Credentials.Password ⟨"u", "p"⟩) 0).1.clients 0 = false ∧
        ((Server.mk 1 30 [Credentials.Password ⟨"u", "p"⟩]
              [(0, ⟨0, 0, 30, List.replicate 32 3⟩)]).handle_auth
            (Credentials.Password ⟨"u", "p"⟩) 0).2.map Sent.packet =
          [ServerPacket.AuthError "Server is full"]) :=
  ⟨by decide, by decide,
   (handle_auth_removal (Server.mk 1 30 [Credentials.Password ⟨"u", "p"⟩]
       [(0, ⟨0, 0, 30, List.replicate 32 3⟩)])
     (Credentials.Password ⟨"u", "p"⟩) 0).2 (by decide) (by decide)⟩

/-! ## C4: Auth from an unknown address -/

/-- C4 counterexample: an `Auth` carrying an *accepted* credential from an
address with no session is answered `AuthOk` (under the bootstrap key), not
`AuthError("Invalid credentials")` — `handle_auth` never consults the session
table for existence. -/
theorem auth_unknown_addr_authok :
    ((Server.mk 10 30 [Credentials.Password ⟨"u", "p"⟩] []).handle_auth
        (Credentials.Password ⟨"u", "p"⟩) 0).2 =
      [Sent.mk 0 ServerPacket.AuthOk (List.replicate 32 0)] ∧
      ServerPacket.AuthOk ≠ ServerPacket.AuthError "Invalid credentials" := by
  decide

/-- C4 (amended): for an `Auth` from an address with no session, the session
table is left unchanged (no session is created), and the reply is
`AuthError("Invalid credentials")` exactly when the credential is not in the
accepted set; an accepted credential gets `AuthOk` (table below `max_clients`)
or `AuthError("Server is full")` (table full). -/
theorem handle_auth_no_session (s : Server) (cred : Credentials) (a : Addr)
    (h : tableContains s.clients a = false) :
    (s.handle_auth cred a).1 = s ∧
      (s.handle_auth cred a).2.map Sent.packet =
        [if s.client_credentials.contains cred = false then
           ServerPacket.AuthError "Invalid credentials"
         else if s.max_clients ≤ s.clients.length then
           ServerPacket.AuthError "Server is full"
         else ServerPacket.AuthOk] := by
  unfold Server.handle_auth
  by_cases hc : s.client_credentials.contains cred = false
  · rw [if_pos (by simpa using hc), if_pos hc]
    exact ⟨rfl, rfl⟩
  · rw [if_neg (by simpa using hc), if_neg hc]
    by_cases hfull : s.max_clients ≤ s.clients.length
    · rw [if_pos hfull, if_pos hfull]
      constructor
      · show Server.mk s.max_clients s.client_timeout s.client_credentials
            (tableRemove s.clients a) = s
        rw [tableContains_false_remove_eq s.clients a h]
      · rfl
    · rw [if_neg hfull, if_neg hfull]
      exact ⟨rfl, rfl⟩

/-- Witness for C4's amended theorem: empty table, accepted credential. -/
theorem handle_auth_no_session_witness :
    tableContains (Server.mk 10 30 [Credentials.Password ⟨"u", "p"⟩] []).clients 0 = false ∧
      (((Server.mk 10 30 [Credentials.Password ⟨"u", "p"⟩] []).handle_auth
          (Credentials.Password ⟨"u", "p"⟩) 0).1 =
        Server.mk 10 30 [Credentials.Password ⟨"u", "p"⟩] [] ∧
      ((Server.mk 10 30 [Credentials.Password ⟨"u", "p"⟩] []).handle_auth
          (Credentials.Password ⟨"u", "p"⟩) 0).2.map Sent.packet =
        [if (Server.mk 10 30 [Credentials.Password ⟨"u", "p"⟩]
              []).client_credentials.contains (Credentials.Password ⟨"u", "p"⟩) = false then
           ServerPacket.AuthError "Invalid credentials"
         else if (Server.mk 10 30 [Credentials.Password ⟨"u", "p"⟩] []).max_clients ≤
             (Server.mk 10 30 [Credentials.Password ⟨"u", "p"⟩] []).clients.length then
           ServerPacket.AuthError "Server is full"
         else ServerPacket.AuthOk]) :=
  ⟨by decide,
   handle_auth_no_session (Server.mk 10 30 [Credentials.Password ⟨"u", "p"⟩] [])
     (Credentials.Password ⟨"u", "p"⟩) 0 (by decide)⟩


/-! ## C2: the session table can outgrow `max_clients` -/

/-- C2 counterexample: `max_clients = 1`, empty table; two key exchanges from
distinct addresses leave two sessions — `handle_key_exchange` inserts without
any capacity check. -/
theorem capacity_exceeded_by_key_exchange :
    ((Server.mk 1 30 [] []).runTrace
        [⟨0, .KeyExchange (List.replicate 32 1), List.replicate 32 2, 0⟩,
         ⟨1, .KeyExchange (List.replicate 32 1), List.replicate 32 2, 0⟩]).1.clients.length =
      2 ∧
      (Server.mk 1 30 [] []).max_clients = 1 := by
  decide

theorem tkeys_handle_sub (s : Server) (p : ClientPacket) (a : Addr) (sk : List Nat)
    (now : Nat) :
    ∀ x ∈ tkeys ((s.handle p a sk now).1.clients),
      x ∈ tkeys s.clients ∨ (x = a ∧ ∃ ck, p = ClientPacket.KeyExchange ck) := by
  intro x hx
  cases p with
  | Auth cred =>
    left
    simp only [Server.handle] at hx
    unfold Server.handle_auth at hx
    by_cases h1 : s.client_credentials.contains cred = false
    · rw [if_pos (by simpa using h1)] at hx
      exact hx
    · rw [if_neg (by simpa using h1)] at hx
      by_cases h2 : s.max_clients ≤ s.clients.length
      · rw [if_pos h2] at hx
        exact (tkeys_tableRemove_sublist s.clients a).subset hx
      · rw [if_neg h2] at hx
        exact hx
  | Data payload =>
    left
    simp only [Server.handle] at hx
    unfold Server.handle_data at hx
    by_cases h : tableContains s.clients a = true
    · rw [assert_auth_ok_eq s a now h] at hx
      rw [tkeys_tableUpdate, tkeys_tableUpdate] at hx
      exact hx
    · rw [assert_auth_error_eq s a now (by simpa using h)] at hx
      exact hx
  | Ping =>
    left
    simp only [Server.handle] at hx
    unfold Server.handle_ping at hx
    by_cases h : tableContains s.clients a = true
    · rw [assert_auth_ok_eq s a now h] at hx
      rw [tkeys_tableUpdate] at hx
      exact hx
    · rw [assert_auth_error_eq s a now (by simpa using h)] at hx
      exact hx
  | Disconnect =>
    left
    simp only [Server.handle] at hx
    unfold Server.handle_disconnect at hx
    exact (tkeys_tableRemove_sublist s.clients a).subset hx
  | KeyExchange ck =>
    simp only [Server.handle] at hx
    unfold Server.handle_key_exchange at hx
    rw [tkeys_tableUpdate, tkeys_tableInsert] at hx
    rcases List.mem_cons.mp hx with h | h
    · exact Or.inr ⟨h, ck, rfl⟩
    · exact Or.inl ((tkeys_tableRemove_sublist s.clients a).subset h)

theorem tkeys_handle_nodup (s : Server) (p : ClientPacket) (a : Addr) (sk : List Nat)
    (now : Nat) (h : (tkeys s.clients).Nodup) :
    (tkeys ((s.handle p a sk now).1.clients)).Nodup := by
  cases p with
  | Auth cred =>
    simp only [Server.handle]
    unfold Server.handle_auth
    by_cases h1 : s.client_credentials.contains cred = false
    · rw [if_pos (by simpa using h1)]
      exact h
    · rw [if_neg (by simpa using h1)]
      by_cases h2 : s.max_clients ≤ s.clients.length
      · rw [if_pos h2]
        exact (tkeys_tableRemove_sublist s.clients a).nodup h
      · rw [if_neg h2]
        exact h
  | Data payload =>
    simp only [Server.handle]
    unfold Server.handle_data
    by_cases hc : tableContains s.clients a = true
    · rw [assert_auth_ok_eq s a now hc]
      simpa only [tkeys_tableUpdate] using h
    · rw [assert_auth_error_eq s a now (by simpa using hc)]
      exact h
  | Ping =>
    simp only [Server.handle]
    unfold Server.handle_ping
    by_cases hc : tableContains s.clients a = true
    · rw [assert_auth_ok_eq s a now hc]
      simpa only [tkeys_tableUpdate] using h
    · rw [assert_auth_error_eq s a now (by simpa using hc)]
      exact h
  | Disconnect =>
    simp only [Server.handle]
    unfold Server.handle_disconnect
    exact (tkeys_tableRemove_sublist s.clients a).nodup h
  | KeyExchange ck =>
    simp only [Server.handle]
    unfold Server.handle_key_exchange
    rw [tkeys_tableUpdate, tkeys_tableInsert]
    exact List.nodup_cons.mpr
      ⟨not_mem_tkeys_tableRemove s.clients a,
       (tkeys_tableRemove_sublist s.clients a).nodup h⟩

theorem runTrace_tkeys (evs : List Event) : ∀ (s : Server), (tkeys s.clients).Nodup →
    (tkeys ((s.runTrace evs).1.clients)).Nodup ∧
      ∀ x ∈ tkeys ((s.runTrace evs).1.clients), x ∈ tkeys s.clients ∨ x ∈ kxAddrs evs := by
  induction evs with
  | nil =>
    intro s h
    exact ⟨h, fun x hx => Or.inl hx⟩
  | cons e rest ih =>
    intro s h
    have h1 := tkeys_handle_nodup s e.packet e.src_addr e.server_key e.now h
    obtain ⟨hn, hs⟩ := ih (s.handle e.packet e.src_addr e.server_key e.now).1 h1
    constructor
    · exact hn
    · intro x hx
      rcases hs x hx with hmem | hkx
      · rcases tkeys_handle_sub s e.packet e.src_addr e.server_key e.now x hmem with
          h' | ⟨hxa, ck, hp⟩
        · exact Or.inl h'
        · right
          unfold kxAddrs
          rw [List.filterMap_cons, hp, hxa]
          exact List.mem_cons_self _ _
      · right
        unfold kxAddrs
        rw [List.filterMap_cons]
        cases hfe : (match e.packet with
          | ClientPacket.KeyExchange _ => some e.src_addr
          | _ => none) with
        | none => exact hkx
        | some b => exact List.mem_cons_of_mem b hkx

/-- C2 (amended): starting from an empty session table, after any sequence of
handler invocations the number of sessions is at most the number of distinct
source addresses that performed a key exchange — it is *not* bounded by
`max_clients` (only `handle_auth` consults `max_clients`, and only
`handle_key_exchange` creates sessions, unconditionally). -/
theorem sessions_bounded_by_kx (s0 : Server) (evs : List Event)
    (h0 : s0.clients = []) :
    ((s0.runTrace evs).1).clients.length ≤ (kxAddrs evs).dedup.length := by
  obtain ⟨hn, hsub⟩ := runTrace_tkeys evs s0 (by rw [h0]; exact List.nodup_nil)
  have hsub' : ∀ x ∈ tkeys ((s0.runTrace evs).1.clients), x ∈ kxAddrs evs := by
    intro x hx
    rcases hsub x hx with h' | h'
    · rw [h0] at h'
      exact absurd h' (List.not_mem_nil x)
    · exact h'
  have hlen : ((s0.runTrace evs).1).clients.length =
      (tkeys ((s0.runTrace evs).1.clients)).length := by
    simp [tkeys]
  rw [hlen]
  calc (tkeys ((s0.runTrace evs).1.clients)).length
      = (tkeys ((s0.runTrace evs).1.clients)).toFinset.card :=
        (List.toFinset_card_of_nodup hn).symm
    _ ≤ (kxAddrs evs).toFinset.card :=
        Finset.card_le_card (fun x hx =>
          List.mem_toFinset.mpr (hsub' x (List.mem_toFinset.mp hx)))
    _ = (kxAddrs evs).dedup.length := List.card_toFinset (kxAddrs evs)

/-- Witness for C2's amended theorem: one key exchange from an empty table. -/
theorem sessions_bounded_by_kx_witness :
    (Server.mk 10 30 [] []).clients = [] ∧
      (((Server.mk 10 30 [] []).runTrace
          [⟨0, .KeyExchange (List.replicate 32 1), List.replicate 32 2, 0⟩]).1).clients.length ≤
        (kxAddrs [⟨0, .KeyExchange (List.replicate 32 1), List.replicate 32 2, 0⟩]).dedup.length :=
  ⟨rfl, sessions_bounded_by_kx (Server.mk 10 30 [] [])
    [⟨0, .KeyExchange (List.replicate 32 1), List.replicate 32 2, 0⟩] rfl⟩


/-! ## Client handshake (src/vpn-client/src/client.rs, `Client::connect`)

`Client::run` calls `connect` first and returns its error unchanged on
failure, so the handshake errors of `run` are exactly those of `connect`.
The two socket waits are modelled as observations: either the timeout branch
(`_ =>`, which also covers a socket-level receive error) or a received
datagram. Outbound sends are modelled as succeeding (an `io::Error` from
`send_to` would propagate an OS-provided message, outside this embedding). -/

inductive RecvOutcome where
  | timeout
  | received (datagram : List Nat)
deriving Repr, DecidableEq

/-- The server message a receive observation decodes to under `key` (`none`
when the wait timed out or the datagram does not decode). -/
def recvdServerPacket (ks : List Nat → List Nat → Nat → Nat)
    (macF : List Nat → List Nat → List Nat → Fin TAG_SIZE → Nat)
    (key : List Nat) : RecvOutcome → Option ServerPacket
  | .timeout => none
  | .received d =>
    match EncryptedPacket.from_bytes d with
    | .error _ => none
    | .ok p =>
      match p.decryptWith ks macF deserializeServerPacket key with
      | .ok msg => some msg
      | .error _ => none

/-- `Client::connect`: send `KeyExchange(c)` under the bootstrap key, wait;
on `KeyExchange(s)` XOR `s` into the session key, send `Auth`, wait; map the
outcome to `Ok(session_key)` or the error strings of the source. The client
random `c` (drawn by `fill_random_bytes`) is the `c` argument. -/
def Client.connect (ks : List Nat → List Nat → Nat → Nat)
    (macF : List Nat → List Nat → List Nat → Fin TAG_SIZE → Nat)
    (credentials : Option Credentials) (c : List Nat) (o1 o2 : RecvOutcome) :
    Except String (List Nat) :=
  match credentials with
  | none => .error "No credentials provided"
  | some _ =>
    match o1 with
    | .timeout => .error "Connection handshake timeout"
    | .received d1 =>
      match EncryptedPacket.from_bytes d1 with
      | .error e => .error e
      | .ok p1 =>
        match p1.decryptWith ks macF deserializeServerPacket
            (List.replicate KEY_SIZE 0) with
        | .error e => .error e
        | .ok msg1 =>
          match msg1 with
          | .KeyExchange server_key =>
            match o2 with
            | .timeout => .error "Connection timeout"
            | .received d2 =>
              match EncryptedPacket.from_bytes d2 with
              | .error e => .error e
              | .ok p2 =>
                match p2.decryptWith ks macF deserializeServerPacket
                    (clientSessionKey c server_key) with
                | .error e => .error e
                | .ok msg2 =>
                  match msg2 with
                  | .AuthOk => .ok (clientSessionKey c server_key)
                  | .AuthError message => .error ("Authentication failed: " ++ message)
                  | _ => .error "Unexpected response from server"
          | _ => .error "Failed to establish secure connection"

/-- "The server's reply to the Auth message was AuthError": credentials were
present (so `Auth` was sent), the first reply decoded to `KeyExchange`, and
the second decoded — under the session key — to `AuthError`. -/
def sawAuthError (ks : List Nat → List Nat → Nat → Nat)
    (macF : List Nat → List Nat → List Nat → Fin TAG_SIZE → Nat)
    (credentials : Option Credentials) (c : List Nat) (o1 o2 : RecvOutcome) : Bool :=
  credentials.isSome &&
    match recvdServerPacket ks macF (List.replicate KEY_SIZE 0) o1 with
    | some (.KeyExchange server_key) =>
      match recvdServerPacket ks macF (clientSessionKey c server_key) o2 with
      | some (.AuthError _) => true
      | _ => false
    | _ => false

/-! ### Substring containment (`str::contains`) -/

/-- Does `hay` start with `n`? -/
def listLeadsWith : List Char → List Char → Bool
  | [], _ => true
  | _ :: _, [] => false
  | a :: xs, b :: ys => a == b && listLeadsWith xs ys

/-- Does `hay` contain `n` as a contiguous run? -/
def listHasSub (n : List Char) : List Char → Bool
  | [] => listLeadsWith n []
  | b :: ys => listLeadsWith n (b :: ys) || listHasSub n ys

def strHasSub (n hay : String) : Bool := listHasSub n.toList hay.toList

theorem listLeadsWith_append (n h m : List Char) (hl : listLeadsWith n h = true) :
    listLeadsWith n (h ++ m) = true := by
  induction n generalizing h with
  | nil => rfl
  | cons a xs ih =>
    cases h with
    | nil => simp [listLeadsWith] at hl
    | cons b ys =>
      simp only [listLeadsWith, Bool.and_eq_true] at hl ⊢
      exact ⟨hl.1, ih ys hl.2⟩

theorem listHasSub_of_leads (n h : List Char) (hl : listLeadsWith n h = true) :
    listHasSub n h = true := by
  cases h with
  | nil => simpa [listHasSub] using hl
  | cons b ys => simp [listHasSub, hl]

theorem strToList_append (s t : String) : (s ++ t).toList = s.toList ++ t.toList := rfl

/-- `"Authentication failed: " ++ msg` always contains `"Authentication
failed"`. -/
theorem strHasSub_authFailed (msg : String) :
    strHasSub "Authentication failed" ("Authentication failed: " ++ msg) = true := by
  unfold strHasSub
  rw [strToList_append]
  exact listHasSub_of_leads _ _
    (listLeadsWith_append _ ("Authentication failed: ").toList _ (by decide))


theorem from_bytes_error_eq (b : List Nat) (e : String)
    (h : EncryptedPacket.from_bytes b = .error e) : e = "Packet too short" := by
  unfold EncryptedPacket.from_bytes at h
  split at h
  · injection h with h
    exact h.symm
  · simp at h

theorem decodeServerPacket_error_cases (b : List Nat) (e : String)
    (h : decodeServerPacket b = .error e) :
    e = "io error: unexpected end of file" ∨ e = "invalid value: unknown variant tag" := by
  unfold decodeServerPacket at h
  repeat' split at h
  all_goals first
    | (injection h with h; first | exact Or.inl h.symm | exact Or.inr h.symm)
    | injection h

theorem deserializeServerPacket_error_cases (b : List Nat) (e : String)
    (h : deserializeServerPacket b = .error e) :
    e = "io error: unexpected end of file" ∨ e = "invalid value: unknown variant tag" := by
  unfold deserializeServerPacket at h
  split at h
  · exact absurd h (by simp)
  · next e' heq =>
    injection h with h
    rw [← h]
    exact decodeServerPacket_error_cases b e' heq

/-- No error string the server-packet AEAD decryption path can produce
contains `"Authentication failed"`. -/
theorem decryptWith_server_error_no_sub (ks : List Nat → List Nat → Nat → Nat)
    (macF : List Nat → List Nat → List Nat → Fin TAG_SIZE → Nat)
    (p : EncryptedPacket) (key : List Nat) (e : String)
    (h : p.decryptWith ks macF deserializeServerPacket key = .error e) :
    strHasSub "Authentication failed" e = false := by
  obtain ⟨n0, d0, t0⟩ := p
  rw [decryptWith_mk] at h
  split_ifs at h
  · split at h
    · exact absurd h (by simp)
    · next e' heq =>
      injection h with h
      rcases deserializeServerPacket_error_cases _ e' heq with h1 | h1 <;>
        · subst h1
          rw [← h]
          decide
  · injection h with h
    rw [← h]
    decide

/-- C9: `Client::connect` (and hence `Client::run`) fails with an error whose
message contains `"Authentication failed"` exactly when the server's reply to
the `Auth` message decrypted to `AuthError`; every other handshake failure
(timeout, undecodable reply, unexpected variant, missing credentials) yields a
message without that substring. -/
theorem connect_authfailed_iff (ks : List Nat → List Nat → Nat → Nat)
    (macF : List Nat → List Nat → List Nat → Fin TAG_SIZE → Nat)
    (credentials : Option Credentials) (c : List Nat) (o1 o2 : RecvOutcome) (e : String)
    (h : Client.connect ks macF credentials c o1 o2 = .error e) :
    (strHasSub "Authentication failed" e = true ↔
      sawAuthError ks macF credentials c o1 o2 = true) := by
  cases credentials with
  | none =>
    simp only [Client.connect, Except.error.injEq] at h
    subst h
    have hR : sawAuthError ks macF none c o1 o2 = false := by
      simp [sawAuthError]
    rw [hR]
    decide
  | some cred =>
    cases o1 with
    | timeout =>
      simp only [Client.connect, Except.error.injEq] at h
      subst h
      have hR : sawAuthError ks macF (some cred) c .timeout o2 = false := by
        simp [sawAuthError, recvdServerPacket]
      rw [hR]
      decide
    | received d1 =>
      cases hfb : EncryptedPacket.from_bytes d1 with
      | error e1 =>
        simp only [Client.connect, hfb, Except.error.injEq] at h
        subst h
        rw [from_bytes_error_eq d1 e1 hfb]
        have hR : sawAuthError ks macF (some cred) c (.received d1) o2 = false := by
          simp [sawAuthError, recvdServerPacket, hfb]
        rw [hR]
        decide
      | ok p1 =>
        cases hd1 : p1.decryptWith ks macF deserializeServerPacket
            (List.replicate KEY_SIZE 0) with
        | error e1 =>
          simp only [Client.connect, hfb, hd1, Except.error.injEq] at h
          subst h
          rw [decryptWith_server_error_no_sub ks macF p1 _ e1 hd1]
          have hR : sawAuthError ks macF (some cred) c (.received d1) o2 = false := by
            simp [sawAuthError, recvdServerPacket, hfb, hd1]
          rw [hR]
        | ok msg1 =>
          cases msg1 with
          | KeyExchange server_key =>
            cases o2 with
            | timeout =>
              simp only [Client.connect, hfb, hd1, Except.error.injEq] at h
              subst h
              have hR : sawAuthError ks macF (some cred) c (.received d1) .timeout =
                  false := by
                simp [sawAuthError, recvdServerPacket, hfb, hd1]
              rw [hR]
              decide
            | received d2 =>
              cases hfb2 : EncryptedPacket.from_bytes d2 with
              | error e2 =>
                simp only [Client.connect, hfb, hd1, hfb2, Except.error.injEq] at h
                subst h
                rw [from_bytes_error_eq d2 e2 hfb2]
                have hR : sawAuthError ks macF (some cred) c (.received d1)
                    (.received d2) = false := by
                  simp [sawAuthError, recvdServerPacket, hfb, hd1, hfb2]
                rw [hR]
                decide
              | ok p2 =>
                cases hd2 : p2.decryptWith ks macF deserializeServerPacket
                    (clientSessionKey c server_key) with
                | error e2 =>
                  simp only [Client.connect, hfb, hd1, hfb2, hd2, Except.error.injEq] at h
                  subst h
                  rw [decryptWith_server_error_no_sub ks macF p2 _ e2 hd2]
                  have hR : sawAuthError ks macF (some cred) c (.received d1)
                      (.received d2) = false := by
                    simp [sawAuthError, recvdServerPacket, hfb, hd1, hfb2, hd2]
                  rw [hR]
                | ok msg2 =>
                  cases msg2 with
                  | AuthOk =>
                    simp only [Client.connect, hfb, hd1, hfb2, hd2] at h
                    injection h
                  | AuthError message =>
                    simp only [Client.connect, hfb, hd1, hfb2, hd2,
                      Except.error.injEq] at h
                    subst h
                    rw [strHasSub_authFailed message]
                    have hR : sawAuthError ks macF (some cred) c (.received d1)
                        (.received d2) = true := by
                      simp [sawAuthError, recvdServerPacket, hfb, hd1, hfb2, hd2]
                    rw [hR]
                  | Data payload =>
                    simp only [Client.connect, hfb, hd1, hfb2, hd2,
                      Except.error.injEq] at h
                    subst h
                    have hR : sawAuthError ks macF (some cred) c (.received d1)
                        (.received d2) = false := by
                      simp [sawAuthError, recvdServerPacket, hfb, hd1, hfb2, hd2]
                    rw [hR]
                    decide
                  | Error msg =>
                    simp only [Client.connect, hfb, hd1, hfb2, hd2,
                      Except.error.injEq] at h
                    subst h
                    have hR : sawAuthError ks macF (some cred) c (.received d1)
                        (.received d2) = false := by
                      simp [sawAuthError, recvdServerPacket, hfb, hd1, hfb2, hd2]
                    rw [hR]
                    decide
                  | Pong =>
                    simp only [Client.connect, hfb, hd1, hfb2, hd2,
                      Except.error.injEq] at h
                    subst h
                    have hR : sawAuthError ks macF (some cred) c (.received d1)
                        (.received d2) = false := by
                      simp [sawAuthError, recvdServerPacket, hfb, hd1, hfb2, hd2]
                    rw [hR]
                    decide
                  | Disconnect reason =>
                    simp only [Client.connect, hfb, hd1, hfb2, hd2,
                      Except.error.injEq] at h
                    subst h
                    have hR : sawAuthError ks macF (some cred) c (.received d1)
                        (.received d2) = false := by
                      simp [sawAuthError, recvdServerPacket, hfb, hd1, hfb2, hd2]
                    rw [hR]
                    decide
                  | KeyExchange k2 =>
                    simp only [Client.connect, hfb, hd1, hfb2, hd2,
                      Except.error.injEq] at h
                    subst h
                    have hR : sawAuthError ks macF (some cred) c (.received d1)
                        (.received d2) = false := by
                      simp [sawAuthError, recvdServerPacket, hfb, hd1, hfb2, hd2]
                    rw [hR]
                    decide
          | AuthOk =>
            simp only [Client.connect, hfb, hd1, Except.error.injEq] at h
            subst h
            have hR : sawAuthError ks macF (some cred) c (.received d1) o2 = false := by
              simp [sawAuthError, recvdServerPacket, hfb, hd1]
            rw [hR]
            decide
          | AuthError message =>
            simp only [Client.connect, hfb, hd1, Except.error.injEq] at h
            subst h
            have hR : sawAuthError ks macF (some cred) c (.received d1) o2 = false := by
              simp [sawAuthError, recvdServerPacket, hfb, hd1]
            rw [hR]
            decide
          | Data payload =>
            simp only [Client.connect, hfb, hd1, Except.error.injEq] at h
            subst h
            have hR : sawAuthError ks macF (some cred) c (.received d1) o2 = false := by
              simp [sawAuthError, recvdServerPacket, hfb, hd1]
            rw [hR]
            decide
          | Error msg =>
            simp only [Client.connect, hfb, hd1, Except.error.injEq] at h
            subst h
            have hR : sawAuthError ks macF (some cred) c (.received d1) o2 = false := by
              simp [sawAuthError, recvdServerPacket, hfb, hd1]
            rw [hR]
            decide
          | Pong =>
            simp only [Client.connect, hfb, hd1, Except.error.injEq] at h
            subst h
            have hR : sawAuthError ks macF (some cred) c (.received d1) o2 = false := by
              simp [sawAuthError, recvdServerPacket, hfb, hd1]
            rw [hR]
            decide
          | Disconnect reason =>
            simp only [Client.connect, hfb, hd1, Except.error.injEq] at h
            subst h
            have hR : sawAuthError ks macF (some cred) c (.received d1) o2 = false := by
              simp [sawAuthError, recvdServerPacket, hfb, hd1]
            rw [hR]
            decide

/-- Witness for C9 at a concrete failing handshake (no credentials). -/
theorem connect_authfailed_iff_witness :
    Client.connect zeroKeystream zeroMacF none (List.replicate 32 0)
        .timeout .timeout = .error "No credentials provided" ∧
      (strHasSub "Authentication failed" "No credentials provided" = true ↔
        sawAuthError zeroKeystream zeroMacF none (List.replicate 32 0)
          .timeout .timeout = true) :=
  ⟨rfl, connect_authfailed_iff zeroKeystream zeroMacF none (List.replicate 32 0)
    .timeout .timeout "No credentials provided" rfl⟩

